import Mathlib

/-!
Shallow embedding of the standings computation engine of the BestLim
tournament manager (source: `src/unnamed/part_001`, `TournamentWorkspace`),
together with the result-entry classifier (`handleSaveResult`) and the
tie badge of the leaderboard snapshot.  JS numbers are modelled as `Int`
(entered scores are produced by `parseInt`) and `ℚ` (overs volumes and
rates); absent (`undefined`) numeric fields are `Option` values, and the
JS `x || d` fallback (which treats `0` as falsy) is modelled explicitly.
-/

namespace BestLim

/-- JS truthiness fallback `a || b` on an integer value: `0` is falsy. -/
def jsOrInt (a b : Int) : Int := if a = 0 then b else a

/-- JS truthiness fallback `a || b` on a rational value: `0` is falsy. -/
def jsOrQ (a b : ℚ) : ℚ := if a = 0 then b else a

/-- JS truthiness fallback on a string: `undefined` and `""` are falsy. -/
def jsOrStr (s : Option String) (d : String) : String :=
  match s with
  | none => d
  | some t => if t = "" then d else t

/-- JS `x || 0` on an optional numeric field: `undefined` and `0` both give `0`. -/
def optD (x : Option Int) : Int := x.getD 0

/-- Match lifecycle status (`types.ts`). -/
inductive MatchStatus
  | NOT_STARTED
  | IN_PROGRESS
  | COMPLETED
deriving DecidableEq

/-- `MatchResultType` from `types.ts`. -/
inductive MatchResultType
  | T1_WIN
  | T2_WIN
  | DRAW
  | TIE
  | NO_RESULT
  | ABANDONED
deriving DecidableEq

/-- The fields of `TournamentConfig` the standings engine reads. -/
structure TournamentConfig where
  oversPerMatch : Option String
  pointsForWin : Int
  pointsForDraw : Int
  pointsForLoss : Int
deriving DecidableEq

/-- Team identity (the stats fields of `Team` are rebuilt by the engine). -/
structure Team where
  id : String
  name : String
deriving DecidableEq

/-- The fields of `Match` the engine reads. -/
structure Match where
  team1Id : String
  team2Id : String
  status : MatchStatus
  resultType : Option MatchResultType
  winnerId : Option String
  t1Runs : Option Int
  t1Wickets : Option Int
  t1OversWhole : Option Int
  t1Balls : Option Int
  t2Runs : Option Int
  t2Wickets : Option Int
  t2OversWhole : Option Int
  t2Balls : Option Int
deriving DecidableEq

/-- `isHundred = tournament.config.oversPerMatch === '100 Balls'`. -/
def isHundred (cfg : TournamentConfig) : Bool :=
  cfg.oversPerMatch = some "100 Balls"

/-- The points triple built by `TournamentWorkspace`. -/
structure PointsConfig where
  win : Int
  draw : Int
  loss : Int
deriving DecidableEq

/-- `pointsConfig = { win: isHundred ? 4 : (pointsForWin || 2), ... }`. -/
def pointsConfig (cfg : TournamentConfig) : PointsConfig :=
  if isHundred cfg then { win := 4, draw := 2, loss := 0 }
  else
    { win := jsOrInt cfg.pointsForWin 2
      draw := jsOrInt cfg.pointsForDraw 1
      loss := jsOrInt cfg.pointsForLoss 0 }

/-- Digits of a decimal numeral to a natural number. -/
def digitsToNat (ds : List Char) : Nat :=
  ds.foldl (fun n c => 10 * n + (c.toNat - 48)) 0

/-- Split a character list into its leading run of decimal digits and the rest. -/
def takeDigits : List Char → List Char × List Char
  | [] => ([], [])
  | c :: cs =>
    if c.isDigit then
      let p := takeDigits cs
      (c :: p.1, p.2)
    else ([], c :: cs)

/-- Model of JS `parseFloat` restricted to plain (optionally signed) decimal
numerals with an optional fractional part; trailing garbage is ignored and
`none` stands for `NaN`.  (Exponent notation is not modelled; the config
strings produced by the creation wizard are plain numerals or `"100 Balls"`.) -/
def parseFloatQ (s : String) : Option ℚ :=
  let cs := s.data.dropWhile (fun c => c.isWhitespace)
  let sgn : ℚ × List Char :=
    match cs with
    | '-' :: r => (-1, r)
    | '+' :: r => (1, r)
    | _ => (1, cs)
  let ip := takeDigits sgn.2
  let fp : List Char :=
    match ip.2 with
    | '.' :: r => (takeDigits r).1
    | _ => []
  if ip.1 = [] ∧ fp = [] then none
  else some (sgn.1 * ((digitsToNat ip.1 : ℚ) + (digitsToNat fp : ℚ) / 10 ^ fp.length))

/-- `maxOvers = isHundred ? 100 : (parseFloat(oversPerMatch || '20') || 20)`;
`parseFloat` returning `NaN` (here `none`) is falsy, as is `0`. -/
def maxOvers (cfg : TournamentConfig) : ℚ :=
  if isHundred cfg then 100
  else
    match parseFloatQ (jsOrStr cfg.oversPerMatch "20") with
    | none => 20
    | some q => jsOrQ q 20

/-- `toDecimalOvers = (whole, balls) => Number(whole) + Number(balls) / 6`. -/
def toDecimalOvers (whole balls : ℚ) : ℚ := whole + balls / 6

/-- Team 1's overs volume faced (`t1VolFaced` in `standingsMap`): in the
100-ball regime an all-out side is credited `100`, otherwise the raw
`t1OversWhole`; in the traditional regime an all-out side is credited the
full `maxOvers`, otherwise `toDecimalOvers(t1OversWhole || 0, t1Balls || 0)`. -/
def t1VolFaced (cfg : TournamentConfig) (mo : ℚ) (m : Match) : ℚ :=
  if isHundred cfg then
    (if m.t1Wickets = some 10 then 100 else (optD m.t1OversWhole : ℚ))
  else
    (if m.t1Wickets = some 10 then mo
     else toDecimalOvers (optD m.t1OversWhole : ℚ) (optD m.t1Balls : ℚ))

/-- Team 2's overs volume faced (`t2VolFaced` in `standingsMap`). -/
def t2VolFaced (cfg : TournamentConfig) (mo : ℚ) (m : Match) : ℚ :=
  if isHundred cfg then
    (if m.t2Wickets = some 10 then 100 else (optD m.t2OversWhole : ℚ))
  else
    (if m.t2Wickets = some 10 then mo
     else toDecimalOvers (optD m.t2OversWhole : ℚ) (optD m.t2Balls : ℚ))

/-- One accumulator entry of `standingsMap` (the fields the engine writes). -/
@[ext] structure Standing where
  id : String
  name : String
  matchesPlayed : Nat
  matchesWon : Nat
  matchesLost : Nat
  actualPoints : Int
  runsScored : Int
  oversFaced : ℚ
  runsConceded : Int
  oversBowled : ℚ
  wicketsTaken : Int
  nrr : ℚ
  scoringRate : ℚ
  economyRate : ℚ
deriving DecidableEq

/-- The zeroed accumulator `stats[t.id] = { ...t, matchesPlayed: 0, ... }`. -/
def initStanding (t : Team) : Standing :=
  { id := t.id, name := t.name, matchesPlayed := 0, matchesWon := 0, matchesLost := 0
    actualPoints := 0, runsScored := 0, oversFaced := 0, runsConceded := 0
    oversBowled := 0, wicketsTaken := 0, nrr := 0, scoringRate := 0, economyRate := 0 }

/-- One step of `tournament.teams.forEach(t => stats[t.id] = {...})`: a JS
record assignment replaces the value at an existing key in place and appends
a fresh key at the end. -/
def insertStat (acc : List Standing) (t : Team) : List Standing :=
  if acc.any (fun s => s.id == t.id) then
    acc.map (fun s => if s.id = t.id then initStanding t else s)
  else acc ++ [initStanding t]

/-- The initial accumulator map, in team-list insertion order. -/
def initStats (teams : List Team) : List Standing := teams.foldl insertStat []

/-- The increments applied to the `t1` entry for one completed match:
matches played, win/points, batting and bowling aggregates, wickets taken. -/
def addT1 (pc : PointsConfig) (cfg : TournamentConfig) (mo : ℚ) (m : Match)
    (s : Standing) : Standing :=
  { s with
    matchesPlayed := s.matchesPlayed + 1
    matchesWon := s.matchesWon + (if m.resultType = some MatchResultType.T1_WIN then 1 else 0)
    actualPoints := s.actualPoints +
      (if m.resultType = some MatchResultType.T1_WIN then pc.win
       else if m.resultType = some MatchResultType.T2_WIN then pc.loss
       else pc.draw)
    runsScored := s.runsScored + optD m.t1Runs
    oversFaced := s.oversFaced + t1VolFaced cfg mo m
    runsConceded := s.runsConceded + optD m.t2Runs
    oversBowled := s.oversBowled + t2VolFaced cfg mo m
    wicketsTaken := s.wicketsTaken + optD m.t2Wickets }

/-- The increments applied to the `t2` entry for one completed match. -/
def addT2 (pc : PointsConfig) (cfg : TournamentConfig) (mo : ℚ) (m : Match)
    (s : Standing) : Standing :=
  { s with
    matchesPlayed := s.matchesPlayed + 1
    matchesWon := s.matchesWon + (if m.resultType = some MatchResultType.T2_WIN then 1 else 0)
    actualPoints := s.actualPoints +
      (if m.resultType = some MatchResultType.T2_WIN then pc.win
       else if m.resultType = some MatchResultType.T1_WIN then pc.loss
       else pc.draw)
    runsScored := s.runsScored + optD m.t2Runs
    oversFaced := s.oversFaced + t2VolFaced cfg mo m
    runsConceded := s.runsConceded + optD m.t1Runs
    oversBowled := s.oversBowled + t1VolFaced cfg mo m
    wicketsTaken := s.wicketsTaken + optD m.t1Wickets }

/-- Per-entry effect of one completed match: the entry keyed `team1Id`
receives the `t1` increments, the entry keyed `team2Id` the `t2` increments
(an entry matching both sides receives both, as the aliased JS object would). -/
def updEntry (pc : PointsConfig) (cfg : TournamentConfig) (mo : ℚ) (m : Match)
    (s : Standing) : Standing :=
  if s.id = m.team2Id then
    addT2 pc cfg mo m (if s.id = m.team1Id then addT1 pc cfg mo m s else s)
  else (if s.id = m.team1Id then addT1 pc cfg mo m s else s)

/-- `stats[x] !== undefined`. -/
def hasTeam (stats : List Standing) (x : String) : Bool :=
  stats.any fun s => s.id == x

/-- Folding one completed match into the accumulator: a match referencing a
team id absent from the map is skipped entirely (`if (!t1 || !t2) return`). -/
def applyMatch (pc : PointsConfig) (cfg : TournamentConfig) (mo : ℚ)
    (stats : List Standing) (m : Match) : List Standing :=
  if hasTeam stats m.team1Id && hasTeam stats m.team2Id then
    stats.map (updEntry pc cfg mo m)
  else stats

/-- The final pass `Object.values(stats).forEach(...)`: scoring rate,
economy rate and net run rate, with a zero denominator giving rate `0`. -/
def computeRates (s : Standing) : Standing :=
  let rrS := if s.oversFaced > 0 then (s.runsScored : ℚ) / s.oversFaced else 0
  let rrC := if s.oversBowled > 0 then (s.runsConceded : ℚ) / s.oversBowled else 0
  { s with nrr := rrS - rrC, scoringRate := rrS, economyRate := rrC }

/-- `standingsMap`: one zeroed entry per team (insertion order of the team
list), then a fold over the COMPLETED matches, then the rates pass. -/
def standingsMap (teams : List Team) (cfg : TournamentConfig)
    (ms : List Match) : List Standing :=
  ((ms.filter (fun m => m.status == MatchStatus.COMPLETED)).foldl
      (applyMatch (pointsConfig cfg) cfg (maxOvers cfg)) (initStats teams)).map computeRates

/-- The JS sort comparator of `standings` as a boolean "may come first"
relation (`cmp(a,b) <= 0`): points descending, then NRR descending, then
scoring rate descending, with early exit on the first non-equal level. -/
def standingsLe (a b : Standing) : Bool :=
  if a.actualPoints ≠ b.actualPoints then decide (b.actualPoints < a.actualPoints)
  else if a.nrr ≠ b.nrr then decide (b.nrr < a.nrr)
  else decide (b.scoringRate ≤ a.scoringRate)

/-- `standings`: the accumulator values stably sorted by the comparator. -/
def standings (teams : List Team) (cfg : TournamentConfig)
    (ms : List Match) : List Standing :=
  (standingsMap teams cfg ms).mergeSort standingsLe

/-- The result classification inside `handleSaveResult`: higher committed
total wins, equal totals tie with no winner. -/
def classifyResult (team1Id team2Id : String) (t1R t2R : Int) :
    MatchResultType × Option String :=
  if t1R > t2R then (MatchResultType.T1_WIN, some team1Id)
  else if t2R > t1R then (MatchResultType.T2_WIN, some team2Id)
  else (MatchResultType.TIE, none)

/-- `handleSaveResult` on the edited match: commits the parsed scores, marks
the match COMPLETED and stores the classified result type and winner. -/
def handleSaveResult (m : Match) (t1R t1W t1O t1B t2R t2W t2O t2B : Int) : Match :=
  let c := classifyResult m.team1Id m.team2Id t1R t2R
  { m with
    status := MatchStatus.COMPLETED
    resultType := some c.1
    winnerId := c.2
    t1Runs := some t1R, t1Wickets := some t1W, t1OversWhole := some t1O, t1Balls := some t1B
    t2Runs := some t2R, t2Wickets := some t2W, t2OversWhole := some t2O, t2Balls := some t2B }

/-- The TIE badge of the leaderboard snapshot for the entry at index `i`:
`standings.some((o, idx) => idx !== i && o.actualPoints === s.actualPoints)`. -/
def tieFlag (l : List Standing) (i : Nat) : Bool :=
  match l[i]? with
  | none => false
  | some s => l.enum.any (fun p => p.1 != i && p.2.actualPoints == s.actualPoints)

/-! Concrete fixtures used to evaluate the engine on the spec's scenarios. -/

attribute [local semireducible] Rat.add Rat.mul Rat.inv Rat.sub List.merge List.mergeSort

def teamA : Team := { id := "A", name := "A" }

def teamB : Team := { id := "B", name := "B" }

def teamC : Team := { id := "C", name := "C" }

/-- Traditional regime, 20-over limit, points 2/1/0. -/
def cfgC1 : TournamentConfig :=
  { oversPerMatch := some "20", pointsForWin := 2, pointsForDraw := 1, pointsForLoss := 0 }

/-- Traditional regime with a configured win value of `0`. -/
def cfgZeroWin : TournamentConfig :=
  { oversPerMatch := some "20", pointsForWin := 0, pointsForDraw := 1, pointsForLoss := 0 }

/-- Ball-count (`'100 Balls'`) regime with configured points 7/5/3. -/
def cfgHundred : TournamentConfig :=
  { oversPerMatch := some "100 Balls", pointsForWin := 7, pointsForDraw := 5, pointsForLoss := 3 }

/-- An unstarted fixture between A (batting first) and B. -/
def blankMatch : Match :=
  { team1Id := "A", team2Id := "B", status := MatchStatus.NOT_STARTED, resultType := none
    winnerId := none, t1Runs := none, t1Wickets := none, t1OversWhole := none, t1Balls := none
    t2Runs := none, t2Wickets := none, t2OversWhole := none, t2Balls := none }

/-- An unstarted fixture between B (batting first) and A. -/
def blankMatchBA : Match :=
  { blankMatch with team1Id := "B", team2Id := "A" }

/-- The spec scenario: A 180/6 in 20.0 overs, B 150/10 in 18.3 overs. -/
def matchC1 : Match := handleSaveResult blankMatch 180 6 20 0 150 10 18 3

/-- A second completed match, used for the order-independence witness. -/
def matchBA : Match := handleSaveResult blankMatchBA 100 4 20 0 120 5 19 2

/-- A 100-ball-regime match: side 1 faces 85 balls for 3 wickets. -/
def matchHundred : Match := handleSaveResult blankMatch 120 3 85 0 110 10 100 0

/-! ### Binary64 model of the JS number arithmetic

The source accumulates overs volumes and computes rates on JS numbers,
i.e. IEEE-754 binary64 values.  A finite binary64 value is a rational
`m * 2 ^ (e - 52)` with `|m| < 2 ^ 53`, so the double semantics is
modelled inside `ℚ` by re-rounding after every arithmetic operation:
`fround` rounds a rational to the nearest representable double (round to
nearest, ties to even).  The model covers the normal finite range, which
every quantity in this engine inhabits — overflow and subnormals do not
arise.  Integer-valued counters below `2 ^ 53` are exact in binary64, so
they are kept as exact integers. -/

/-- `log2Fuel fuel n`: floor of the base-2 logarithm, with explicit fuel
(`fuel ≥ n` suffices, one unit per halving). -/
def log2Fuel : Nat → Nat → Nat
  | 0, _ => 0
  | f + 1, n => if 2 ≤ n then log2Fuel f (n / 2) + 1 else 0

/-- Floor of the base-2 logarithm of a positive natural number. -/
def natLog2 (n : Nat) : Nat := log2Fuel n n

/-- `2 ^ k` as a rational, for an integer exponent. -/
def pow2 (k : ℤ) : ℚ :=
  if 0 ≤ k then ((2 ^ k.toNat : ℕ) : ℚ) else 1 / ((2 ^ (-k).toNat : ℕ) : ℚ)

/-- Floor of the base-2 logarithm of a positive rational: the bit-length
estimate from numerator and denominator, corrected by at most one. -/
def floorLog2 (x : ℚ) : ℤ :=
  let e0 : ℤ := (natLog2 x.num.toNat : ℤ) - (natLog2 x.den : ℤ)
  if pow2 (e0 + 1) ≤ x then e0 + 1 else if x < pow2 e0 then e0 - 1 else e0

/-- Nearest integer to a rational, ties going to the even integer. -/
def roundHalfEven (q : ℚ) : ℤ :=
  let f := q.floor
  if q - f < 1 / 2 then f
  else if (1 : ℚ) / 2 < q - f then f + 1
  else if f % 2 = 0 then f else f + 1

/-- Round a rational to the nearest binary64 value: 53-bit significand,
round to nearest, ties to even (normal finite range). -/
def fround (q : ℚ) : ℚ :=
  if q = 0 then 0
  else
    let x := if q < 0 then -q else q
    let e := floorLog2 x
    let m := roundHalfEven (x * pow2 (52 - e))
    (if q < 0 then -1 else 1) * (m : ℚ) * pow2 (e - 52)

/-- Binary64 addition: the exact sum, re-rounded. -/
def fadd (a b : ℚ) : ℚ := fround (a + b)

/-- Binary64 subtraction: the exact difference, re-rounded. -/
def fsub (a b : ℚ) : ℚ := fround (a - b)

/-- Binary64 division: the exact quotient, re-rounded. -/
def fdiv (a b : ℚ) : ℚ := fround (a / b)

/-! ### The aggregation pipeline under binary64 semantics -/

/-- `toDecimalOvers` under binary64 semantics. -/
def toDecimalOversF (whole balls : ℚ) : ℚ := fadd whole (fdiv balls 6)

/-- Team 1's overs volume faced, under binary64 semantics. -/
def t1VolFacedF (cfg : TournamentConfig) (mo : ℚ) (m : Match) : ℚ :=
  if isHundred cfg then
    (if m.t1Wickets = some 10 then 100 else (optD m.t1OversWhole : ℚ))
  else
    (if m.t1Wickets = some 10 then mo
     else toDecimalOversF (optD m.t1OversWhole : ℚ) (optD m.t1Balls : ℚ))

/-- Team 2's overs volume faced, under binary64 semantics. -/
def t2VolFacedF (cfg : TournamentConfig) (mo : ℚ) (m : Match) : ℚ :=
  if isHundred cfg then
    (if m.t2Wickets = some 10 then 100 else (optD m.t2OversWhole : ℚ))
  else
    (if m.t2Wickets = some 10 then mo
     else toDecimalOversF (optD m.t2OversWhole : ℚ) (optD m.t2Balls : ℚ))

/-- `addT1` under binary64 semantics: the overs accumulations re-round
after every addition; the integer counters stay exact. -/
def addT1F (pc : PointsConfig) (cfg : TournamentConfig) (mo : ℚ) (m : Match)
    (s : Standing) : Standing :=
  { s with
    matchesPlayed := s.matchesPlayed + 1
    matchesWon := s.matchesWon + (if m.resultType = some MatchResultType.T1_WIN then 1 else 0)
    actualPoints := s.actualPoints +
      (if m.resultType = some MatchResultType.T1_WIN then pc.win
       else if m.resultType = some MatchResultType.T2_WIN then pc.loss
       else pc.draw)
    runsScored := s.runsScored + optD m.t1Runs
    oversFaced := fadd s.oversFaced (t1VolFacedF cfg mo m)
    runsConceded := s.runsConceded + optD m.t2Runs
    oversBowled := fadd s.oversBowled (t2VolFacedF cfg mo m)
    wicketsTaken := s.wicketsTaken + optD m.t2Wickets }

/-- `addT2` under binary64 semantics. -/
def addT2F (pc : PointsConfig) (cfg : TournamentConfig) (mo : ℚ) (m : Match)
    (s : Standing) : Standing :=
  { s with
    matchesPlayed := s.matchesPlayed + 1
    matchesWon := s.matchesWon + (if m.resultType = some MatchResultType.T2_WIN then 1 else 0)
    actualPoints := s.actualPoints +
      (if m.resultType = some MatchResultType.T2_WIN then pc.win
       else if m.resultType = some MatchResultType.T1_WIN then pc.loss
       else pc.draw)
    runsScored := s.runsScored + optD m.t2Runs
    oversFaced := fadd s.oversFaced (t2VolFacedF cfg mo m)
    runsConceded := s.runsConceded + optD m.t1Runs
    oversBowled := fadd s.oversBowled (t1VolFacedF cfg mo m)
    wicketsTaken := s.wicketsTaken + optD m.t1Wickets }

/-- Per-entry effect of one completed match, under binary64 semantics. -/
def updEntryF (pc : PointsConfig) (cfg : TournamentConfig) (mo : ℚ) (m : Match)
    (s : Standing) : Standing :=
  if s.id = m.team2Id then
    addT2F pc cfg mo m (if s.id = m.team1Id then addT1F pc cfg mo m s else s)
  else (if s.id = m.team1Id then addT1F pc cfg mo m s else s)

/-- Folding one completed match, under binary64 semantics. -/
def applyMatchF (pc : PointsConfig) (cfg : TournamentConfig) (mo : ℚ)
    (stats : List Standing) (m : Match) : List Standing :=
  if hasTeam stats m.team1Id && hasTeam stats m.team2Id then
    stats.map (updEntryF pc cfg mo m)
  else stats

/-- The rates pass under binary64 semantics. -/
def computeRatesF (s : Standing) : Standing :=
  let rrS := if s.oversFaced > 0 then fdiv (s.runsScored : ℚ) s.oversFaced else 0
  let rrC := if s.oversBowled > 0 then fdiv (s.runsConceded : ℚ) s.oversBowled else 0
  { s with nrr := fsub rrS rrC, scoringRate := rrS, economyRate := rrC }

/-- `standingsMap` under binary64 semantics. -/
def standingsMapF (teams : List Team) (cfg : TournamentConfig)
    (ms : List Match) : List Standing :=
  ((ms.filter (fun m => m.status == MatchStatus.COMPLETED)).foldl
      (applyMatchF (pointsConfig cfg) cfg (maxOvers cfg)) (initStats teams)).map computeRatesF

/-! ### The integer-valued core of a standing -/

/-- The integer-valued components of a standing: these are exact in
binary64 (integer doubles below `2 ^ 53`), unlike the overs volumes. -/
structure CoreStanding where
  id : String
  name : String
  matchesPlayed : Nat
  matchesWon : Nat
  matchesLost : Nat
  actualPoints : Int
  runsScored : Int
  runsConceded : Int
  wicketsTaken : Int
deriving DecidableEq

/-- Projection of a standing onto its integer-valued core. -/
def core (s : Standing) : CoreStanding :=
  { id := s.id, name := s.name, matchesPlayed := s.matchesPlayed
    matchesWon := s.matchesWon, matchesLost := s.matchesLost
    actualPoints := s.actualPoints, runsScored := s.runsScored
    runsConceded := s.runsConceded, wicketsTaken := s.wicketsTaken }

/-- A standing realizing a given core (zeroed rational fields). -/
def expand (c : CoreStanding) : Standing :=
  { id := c.id, name := c.name, matchesPlayed := c.matchesPlayed
    matchesWon := c.matchesWon, matchesLost := c.matchesLost
    actualPoints := c.actualPoints, runsScored := c.runsScored
    oversFaced := 0, runsConceded := c.runsConceded, oversBowled := 0
    wicketsTaken := c.wicketsTaken, nrr := 0, scoringRate := 0, economyRate := 0 }

/-- The `t1`-side increments on the integer core. -/
def addT1C (pc : PointsConfig) (m : Match) (c : CoreStanding) : CoreStanding :=
  { c with
    matchesPlayed := c.matchesPlayed + 1
    matchesWon := c.matchesWon + (if m.resultType = some MatchResultType.T1_WIN then 1 else 0)
    actualPoints := c.actualPoints +
      (if m.resultType = some MatchResultType.T1_WIN then pc.win
       else if m.resultType = some MatchResultType.T2_WIN then pc.loss
       else pc.draw)
    runsScored := c.runsScored + optD m.t1Runs
    runsConceded := c.runsConceded + optD m.t2Runs
    wicketsTaken := c.wicketsTaken + optD m.t2Wickets }

/-- The `t2`-side increments on the integer core. -/
def addT2C (pc : PointsConfig) (m : Match) (c : CoreStanding) : CoreStanding :=
  { c with
    matchesPlayed := c.matchesPlayed + 1
    matchesWon := c.matchesWon + (if m.resultType = some MatchResultType.T2_WIN then 1 else 0)
    actualPoints := c.actualPoints +
      (if m.resultType = some MatchResultType.T2_WIN then pc.win
       else if m.resultType = some MatchResultType.T1_WIN then pc.loss
       else pc.draw)
    runsScored := c.runsScored + optD m.t2Runs
    runsConceded := c.runsConceded + optD m.t1Runs
    wicketsTaken := c.wicketsTaken + optD m.t1Wickets }

/-- Per-entry effect of one completed match on the integer core. -/
def coreUpd (pc : PointsConfig) (m : Match) (c : CoreStanding) : CoreStanding :=
  if c.id = m.team2Id then
    addT2C pc m (if c.id = m.team1Id then addT1C pc m c else c)
  else (if c.id = m.team1Id then addT1C pc m c else c)

/-- Folding one completed match on the integer cores. -/
def coreApply (pc : PointsConfig) (cs : List CoreStanding) (m : Match) :
    List CoreStanding :=
  if (cs.any fun c => c.id == m.team1Id) && (cs.any fun c => c.id == m.team2Id) then
    cs.map (coreUpd pc m)
  else cs

/-- Three completed innings of 1, 2 and 3 balls for team A (volumes 1/6,
2/6 and 3/6 of an over), exercising binary64 rounding of the overs sums. -/
def mF1 : Match := handleSaveResult blankMatch 10 2 0 1 5 3 0 0

def mF2 : Match := handleSaveResult blankMatch 10 2 0 2 5 3 0 0

def mF3 : Match := handleSaveResult blankMatch 10 2 0 3 5 3 0 0


/-! ### Structural lemmas about the aggregation step -/

theorem addT1_id (pc : PointsConfig) (cfg : TournamentConfig) (mo : ℚ) (m : Match)
    (s : Standing) : (addT1 pc cfg mo m s).id = s.id := rfl

theorem addT2_id (pc : PointsConfig) (cfg : TournamentConfig) (mo : ℚ) (m : Match)
    (s : Standing) : (addT2 pc cfg mo m s).id = s.id := rfl

theorem updEntry_id (pc : PointsConfig) (cfg : TournamentConfig) (mo : ℚ) (m : Match)
    (s : Standing) : (updEntry pc cfg mo m s).id = s.id := by
  unfold updEntry
  split_ifs <;> rfl

theorem updEntry_name (pc : PointsConfig) (cfg : TournamentConfig) (mo : ℚ) (m : Match)
    (s : Standing) : (updEntry pc cfg mo m s).name = s.name := by
  unfold updEntry
  split_ifs <;> rfl

theorem updEntry_matchesLost (pc : PointsConfig) (cfg : TournamentConfig) (mo : ℚ)
    (m : Match) (s : Standing) : (updEntry pc cfg mo m s).matchesLost = s.matchesLost := by
  unfold updEntry
  split_ifs <;> rfl

theorem updEntry_nrr (pc : PointsConfig) (cfg : TournamentConfig) (mo : ℚ) (m : Match)
    (s : Standing) : (updEntry pc cfg mo m s).nrr = s.nrr := by
  unfold updEntry
  split_ifs <;> rfl

theorem updEntry_scoringRate (pc : PointsConfig) (cfg : TournamentConfig) (mo : ℚ)
    (m : Match) (s : Standing) : (updEntry pc cfg mo m s).scoringRate = s.scoringRate := by
  unfold updEntry
  split_ifs <;> rfl

theorem updEntry_economyRate (pc : PointsConfig) (cfg : TournamentConfig) (mo : ℚ)
    (m : Match) (s : Standing) : (updEntry pc cfg mo m s).economyRate = s.economyRate := by
  unfold updEntry
  split_ifs <;> rfl

theorem updEntry_matchesPlayed (pc : PointsConfig) (cfg : TournamentConfig) (mo : ℚ)
    (m : Match) (s : Standing) :
    (updEntry pc cfg mo m s).matchesPlayed = s.matchesPlayed +
      (if s.id = m.team1Id then 1 else 0) + (if s.id = m.team2Id then 1 else 0) := by
  unfold updEntry
  split_ifs <;> simp [addT1, addT2]

theorem updEntry_matchesWon (pc : PointsConfig) (cfg : TournamentConfig) (mo : ℚ)
    (m : Match) (s : Standing) :
    (updEntry pc cfg mo m s).matchesWon = s.matchesWon +
      (if s.id = m.team1Id then (if m.resultType = some MatchResultType.T1_WIN then 1 else 0) else 0) +
      (if s.id = m.team2Id then (if m.resultType = some MatchResultType.T2_WIN then 1 else 0) else 0) := by
  unfold updEntry
  split_ifs <;> simp_all [addT1, addT2]

theorem updEntry_actualPoints (pc : PointsConfig) (cfg : TournamentConfig) (mo : ℚ)
    (m : Match) (s : Standing) :
    (updEntry pc cfg mo m s).actualPoints = s.actualPoints +
      (if s.id = m.team1Id then
        (if m.resultType = some MatchResultType.T1_WIN then pc.win
         else if m.resultType = some MatchResultType.T2_WIN then pc.loss else pc.draw) else 0) +
      (if s.id = m.team2Id then
        (if m.resultType = some MatchResultType.T2_WIN then pc.win
         else if m.resultType = some MatchResultType.T1_WIN then pc.loss else pc.draw) else 0) := by
  unfold updEntry
  split_ifs <;> simp_all [addT1, addT2]

theorem updEntry_runsScored (pc : PointsConfig) (cfg : TournamentConfig) (mo : ℚ)
    (m : Match) (s : Standing) :
    (updEntry pc cfg mo m s).runsScored = s.runsScored +
      (if s.id = m.team1Id then optD m.t1Runs else 0) +
      (if s.id = m.team2Id then optD m.t2Runs else 0) := by
  unfold updEntry
  split_ifs <;> simp [addT1, addT2]

theorem updEntry_oversFaced (pc : PointsConfig) (cfg : TournamentConfig) (mo : ℚ)
    (m : Match) (s : Standing) :
    (updEntry pc cfg mo m s).oversFaced = s.oversFaced +
      (if s.id = m.team1Id then t1VolFaced cfg mo m else 0) +
      (if s.id = m.team2Id then t2VolFaced cfg mo m else 0) := by
  unfold updEntry
  split_ifs <;> simp [addT1, addT2]

theorem updEntry_runsConceded (pc : PointsConfig) (cfg : TournamentConfig) (mo : ℚ)
    (m : Match) (s : Standing) :
    (updEntry pc cfg mo m s).runsConceded = s.runsConceded +
      (if s.id = m.team1Id then optD m.t2Runs else 0) +
      (if s.id = m.team2Id then optD m.t1Runs else 0) := by
  unfold updEntry
  split_ifs <;> simp [addT1, addT2]

theorem updEntry_oversBowled (pc : PointsConfig) (cfg : TournamentConfig) (mo : ℚ)
    (m : Match) (s : Standing) :
    (updEntry pc cfg mo m s).oversBowled = s.oversBowled +
      (if s.id = m.team1Id then t2VolFaced cfg mo m else 0) +
      (if s.id = m.team2Id then t1VolFaced cfg mo m else 0) := by
  unfold updEntry
  split_ifs <;> simp [addT1, addT2]

theorem updEntry_wicketsTaken (pc : PointsConfig) (cfg : TournamentConfig) (mo : ℚ)
    (m : Match) (s : Standing) :
    (updEntry pc cfg mo m s).wicketsTaken = s.wicketsTaken +
      (if s.id = m.team1Id then optD m.t2Wickets else 0) +
      (if s.id = m.team2Id then optD m.t1Wickets else 0) := by
  unfold updEntry
  split_ifs <;> simp [addT1, addT2]

/-- The per-entry effects of two completed matches commute. -/
theorem updEntry_comm (pc : PointsConfig) (cfg : TournamentConfig) (mo : ℚ)
    (m1 m2 : Match) (s : Standing) :
    updEntry pc cfg mo m1 (updEntry pc cfg mo m2 s) =
      updEntry pc cfg mo m2 (updEntry pc cfg mo m1 s) := by
  ext <;>
    simp only [updEntry_id, updEntry_name, updEntry_matchesLost, updEntry_nrr,
      updEntry_scoringRate, updEntry_economyRate, updEntry_matchesPlayed,
      updEntry_matchesWon, updEntry_actualPoints, updEntry_runsScored,
      updEntry_oversFaced, updEntry_runsConceded, updEntry_oversBowled,
      updEntry_wicketsTaken] <;> ring

theorem hasTeam_map (pc : PointsConfig) (cfg : TournamentConfig) (mo : ℚ) (m : Match)
    (stats : List Standing) (x : String) :
    hasTeam (stats.map (updEntry pc cfg mo m)) x = hasTeam stats x := by
  unfold hasTeam
  rw [List.any_map]
  congr 1
  funext s
  simp [Function.comp, updEntry_id]

/-- Folding two completed matches into the accumulator commutes. -/
theorem applyMatch_comm (pc : PointsConfig) (cfg : TournamentConfig) (mo : ℚ)
    (stats : List Standing) (m1 m2 : Match) :
    applyMatch pc cfg mo (applyMatch pc cfg mo stats m1) m2 =
      applyMatch pc cfg mo (applyMatch pc cfg mo stats m2) m1 := by
  unfold applyMatch
  rcases hg1 : (hasTeam stats m1.team1Id && hasTeam stats m1.team2Id) with _ | _ <;>
    rcases hg2 : (hasTeam stats m2.team1Id && hasTeam stats m2.team2Id) with _ | _ <;>
    simp only [hasTeam_map, hg1, hg2, if_true, if_false, Bool.false_eq_true, List.map_map]
  congr 1
  funext s
  exact updEntry_comm pc cfg mo m2 m1 s

/-- The accumulator fold is invariant under permutation of the match list. -/
theorem foldl_applyMatch_perm (pc : PointsConfig) (cfg : TournamentConfig) (mo : ℚ)
    {l1 l2 : List Match} (h : l1.Perm l2) (init : List Standing) :
    l1.foldl (applyMatch pc cfg mo) init = l2.foldl (applyMatch pc cfg mo) init := by
  haveI : RightCommutative (applyMatch pc cfg mo) :=
    ⟨fun b a1 a2 => applyMatch_comm pc cfg mo b a1 a2⟩
  exact h.foldl_eq init


/-! ### Claims C1 through C3 -/

/-- C1: for teams A and B with points 2/1/0, traditional regime and a
20-over limit, one completed match in which A scores 180/6 in 20.0 overs
and B scores 150/10 in 18.3 overs yields a first-batting win with winner A,
oversFaced 20 for both sides (all-out credit for B), points 2 and 0, and
net run rates 1.5 and -1.5. -/
theorem c1_two_team_scenario :
    matchC1.resultType = some MatchResultType.T1_WIN ∧
    matchC1.winnerId = some "A" ∧
    ((standingsMap [teamA, teamB] cfgC1 [matchC1]).map
      (fun s => (s.id, s.oversFaced, s.actualPoints, s.nrr))) =
      [("A", 20, 2, 3 / 2), ("B", 20, 0, -(3 / 2))] := by
  refine ⟨by decide, by decide, by decide⟩

/-- C2: the aggregation loop of `standingsMap` increments the winner's
`matchesWon` and both sides' `matchesPlayed`, but never touches
`matchesLost`: after a completed `T1_WIN` match the loser's cumulative
loss counter is still `0` (the spec requires it to be incremented). -/
theorem c2_matchesLost_never_incremented :
    ((standingsMap [teamA, teamB] cfgC1 [matchC1]).map
      (fun s => (s.id, s.matchesPlayed, s.matchesWon, s.matchesLost))) =
      [("A", 1, 1, 0), ("B", 1, 0, 0)] ∧
    (∀ (pc : PointsConfig) (cfg : TournamentConfig) (mo : ℚ) (m : Match) (s : Standing),
      (updEntry pc cfg mo m s).matchesLost = s.matchesLost) :=
  ⟨by decide, fun pc cfg mo m s => updEntry_matchesLost pc cfg mo m s⟩

/-- C3 counterexample: with a configured win value of `0` in the
traditional regime, the winner of a completed match is awarded `2` points
(the `|| 2` fallback treats the configured `0` as absent), not the
configured `0` — so the configured values are not applied exactly as
given for every integer value. -/
theorem c3_counterexample_zero_win :
    ((standingsMap [teamA, teamB] cfgZeroWin [matchC1]).map
      (fun s => (s.id, s.actualPoints))) ≠ [("A", 0), ("B", 0)] ∧
    ((standingsMap [teamA, teamB] cfgZeroWin [matchC1]).map
      (fun s => (s.id, s.actualPoints))) = [("A", 2), ("B", 0)] ∧
    cfgZeroWin.pointsForWin = 0 := by
  refine ⟨by decide, by decide, rfl⟩

/-- C3 (amended): in the traditional regime the configured win, draw and
loss point values are applied exactly as given — winner win-points, loser
loss-points, both sides draw-points on any non-win result — for every
integer value (negative values included) provided the configured win and
draw values are nonzero; a configured `0` for win or draw is replaced by
the fallback defaults 2 and 1 respectively (a configured `0` loss value is
preserved, the loss fallback being `0`). -/
theorem c3_amended_nonzero_points_applied_exactly (cfg : TournamentConfig)
    (hreg : isHundred cfg = false) (hw : cfg.pointsForWin ≠ 0)
    (hd : cfg.pointsForDraw ≠ 0) :
    pointsConfig cfg =
      { win := cfg.pointsForWin, draw := cfg.pointsForDraw, loss := cfg.pointsForLoss } ∧
    (∀ (mo : ℚ) (m : Match) (s : Standing), s.id = m.team1Id → s.id ≠ m.team2Id →
      (updEntry (pointsConfig cfg) cfg mo m s).actualPoints = s.actualPoints +
        (if m.resultType = some MatchResultType.T1_WIN then cfg.pointsForWin
         else if m.resultType = some MatchResultType.T2_WIN then cfg.pointsForLoss
         else cfg.pointsForDraw)) ∧
    (∀ (mo : ℚ) (m : Match) (s : Standing), s.id = m.team2Id → s.id ≠ m.team1Id →
      (updEntry (pointsConfig cfg) cfg mo m s).actualPoints = s.actualPoints +
        (if m.resultType = some MatchResultType.T2_WIN then cfg.pointsForWin
         else if m.resultType = some MatchResultType.T1_WIN then cfg.pointsForLoss
         else cfg.pointsForDraw)) := by
  have hl : jsOrInt cfg.pointsForLoss 0 = cfg.pointsForLoss := by
    unfold jsOrInt
    split <;> simp_all
  have hpc : pointsConfig cfg =
      { win := cfg.pointsForWin, draw := cfg.pointsForDraw, loss := cfg.pointsForLoss } := by
    simp only [pointsConfig, hreg, Bool.false_eq_true, if_false, hl]
    simp [jsOrInt, hw, hd]
  refine ⟨hpc, ?_, ?_⟩ <;> intro mo m s h1 h2 <;>
    rw [updEntry_actualPoints, hpc, if_pos h1, if_neg h2] <;> simp

/-- C3 amended witness at the 2/1/0 configuration and the C1 match. -/
theorem c3_amended_witness :
    (updEntry (pointsConfig cfgC1) cfgC1 20 matchC1 (initStanding teamA)).actualPoints =
      (initStanding teamA).actualPoints + cfgC1.pointsForWin := by
  have h := (c3_amended_nonzero_points_applied_exactly cfgC1 (by decide) (by decide)
    (by decide)).2.1 20 matchC1 (initStanding teamA) (by decide) (by decide)
  have hr : matchC1.resultType = some MatchResultType.T1_WIN := by decide
  rw [hr] at h
  simpa using h


/-! ### Claims C4 through C6 -/

/-- The exact-arithmetic per-entry update projects onto the core update
(the integer components do not depend on the overs/rates fields). -/
theorem core_updEntry (pc : PointsConfig) (cfg : TournamentConfig) (mo : ℚ)
    (m : Match) (s : Standing) :
    core (updEntry pc cfg mo m s) = coreUpd pc m (core s) := by
  simp only [updEntry, coreUpd, core]
  split_ifs <;> rfl

/-- The binary64 per-entry update projects onto the same core update: the
float rounding touches only the overs and rates fields. -/
theorem core_updEntryF (pc : PointsConfig) (cfg : TournamentConfig) (mo : ℚ)
    (m : Match) (s : Standing) :
    core (updEntryF pc cfg mo m s) = coreUpd pc m (core s) := by
  simp only [updEntryF, coreUpd, core]
  split_ifs <;> rfl

theorem core_expand (c : CoreStanding) : core (expand c) = c := rfl

theorem coreUpd_id (pc : PointsConfig) (m : Match) (c : CoreStanding) :
    (coreUpd pc m c).id = c.id := by
  unfold coreUpd
  split_ifs <;> rfl

/-- Core updates of two completed matches commute (transferred from the
commutation of the exact per-entry updates). -/
theorem coreUpd_comm (pc : PointsConfig) (m1 m2 : Match) (c : CoreStanding) :
    coreUpd pc m1 (coreUpd pc m2 c) = coreUpd pc m2 (coreUpd pc m1 c) := by
  have e : ∀ (m : Match) (s : Standing),
      core (updEntry pc cfgC1 0 m s) = coreUpd pc m (core s) :=
    core_updEntry pc cfgC1 0
  have h1 : core (updEntry pc cfgC1 0 m1 (updEntry pc cfgC1 0 m2 (expand c))) =
      coreUpd pc m1 (coreUpd pc m2 c) := by
    rw [e, e, core_expand]
  have h2 : core (updEntry pc cfgC1 0 m2 (updEntry pc cfgC1 0 m1 (expand c))) =
      coreUpd pc m2 (coreUpd pc m1 c) := by
    rw [e, e, core_expand]
  rw [← h1, ← h2, updEntry_comm]

theorem coreAny_map (pc : PointsConfig) (m : Match) (cs : List CoreStanding)
    (x : String) :
    ((cs.map (coreUpd pc m)).any fun c => c.id == x) = (cs.any fun c => c.id == x) := by
  rw [List.any_map]
  congr 1
  funext c
  simp [Function.comp, coreUpd_id]

/-- Folding two completed matches on the cores commutes. -/
theorem coreApply_comm (pc : PointsConfig) (cs : List CoreStanding) (m1 m2 : Match) :
    coreApply pc (coreApply pc cs m1) m2 = coreApply pc (coreApply pc cs m2) m1 := by
  unfold coreApply
  rcases hg1 : ((cs.any fun c => c.id == m1.team1Id) && (cs.any fun c => c.id == m1.team2Id)) with _ | _ <;>
    rcases hg2 : ((cs.any fun c => c.id == m2.team1Id) && (cs.any fun c => c.id == m2.team2Id)) with _ | _ <;>
    simp only [coreAny_map, hg1, hg2, if_true, if_false, Bool.false_eq_true, List.map_map]
  congr 1
  funext c
  exact coreUpd_comm pc m2 m1 c

/-- The core fold is invariant under permutation of the match list. -/
theorem foldl_coreApply_perm (pc : PointsConfig) {l1 l2 : List Match}
    (h : l1.Perm l2) (init : List CoreStanding) :
    l1.foldl (coreApply pc) init = l2.foldl (coreApply pc) init := by
  haveI : RightCommutative (coreApply pc) :=
    ⟨fun b a1 a2 => coreApply_comm pc b a1 a2⟩
  exact h.foldl_eq init

/-- `any` over a type-changing `map`. -/
theorem any_map_comp {α β : Type} (f : α → β) (p : β → Bool) (l : List α) :
    (l.map f).any p = l.any (fun a => p (f a)) := by
  induction l with
  | nil => rfl
  | cons a l ih => simp [List.any_cons, ih]

/-- The binary64 fold step simulates the core fold step. -/
theorem core_applyMatchF (pc : PointsConfig) (cfg : TournamentConfig) (mo : ℚ)
    (stats : List Standing) (m : Match) :
    (applyMatchF pc cfg mo stats m).map core = coreApply pc (stats.map core) m := by
  unfold applyMatchF coreApply
  have hg1 : ((stats.map core).any fun c => c.id == m.team1Id) = hasTeam stats m.team1Id := by
    rw [any_map_comp]
    rfl
  have hg2 : ((stats.map core).any fun c => c.id == m.team2Id) = hasTeam stats m.team2Id := by
    rw [any_map_comp]
    rfl
  rw [hg1, hg2]
  split
  · rw [List.map_map, List.map_map]
    congr 1
    funext s
    simp [Function.comp, core_updEntryF]
  · rfl

theorem core_foldl_applyMatchF (pc : PointsConfig) (cfg : TournamentConfig) (mo : ℚ)
    (l : List Match) (init : List Standing) :
    (l.foldl (applyMatchF pc cfg mo) init).map core =
      l.foldl (coreApply pc) (init.map core) := by
  induction l generalizing init with
  | nil => rfl
  | cons m l ih => rw [List.foldl_cons, List.foldl_cons, ih, core_applyMatchF]

/-- The integer cores of the binary64 standings map are the core fold of
the completed matches. -/
theorem core_standingsMapF (teams : List Team) (cfg : TournamentConfig)
    (ms : List Match) :
    (standingsMapF teams cfg ms).map core =
      (ms.filter (fun m => m.status == MatchStatus.COMPLETED)).foldl
        (coreApply (pointsConfig cfg)) ((initStats teams).map core) := by
  unfold standingsMapF
  rw [List.map_map]
  have h : core ∘ computeRatesF = core := funext fun s => rfl
  rw [h, core_foldl_applyMatchF]

set_option maxRecDepth 8000 in
set_option maxHeartbeats 8000000 in
/-- C4 counterexample: the program sums overs volumes in IEEE-754 binary64,
whose addition is not associative.  Three completed innings of 1, 2 and 3
balls give team A the volumes fl(1/6), fl(2/6) and 1/2; accumulating them
in the match order (1,2,3) yields oversFaced 1, but in the order (2,3,1)
yields 9007199254740991/2^53 = 0.9999999999999999 — so permuting the match
list does not leave the computed standings identical. -/
theorem c4_counterexample_float_order :
    [mF1, mF2, mF3].Perm [mF2, mF3, mF1] ∧
    fdiv 1 6 = 6004799503160661 / 36028797018963968 ∧
    fdiv 2 6 = 6004799503160661 / 18014398509481984 ∧
    fdiv 3 6 = 1 / 2 ∧
    ((standingsMapF [teamA, teamB] cfgC1 [mF1, mF2, mF3]).map
      (fun s => (s.id, s.oversFaced))) = [("A", 1), ("B", 0)] ∧
    ((standingsMapF [teamA, teamB] cfgC1 [mF2, mF3, mF1]).map
      (fun s => (s.id, s.oversFaced))) =
      [("A", 9007199254740991 / 9007199254740992), ("B", 0)] ∧
    standingsMapF [teamA, teamB] cfgC1 [mF1, mF2, mF3] ≠
      standingsMapF [teamA, teamB] cfgC1 [mF2, mF3, mF1] := by
  have h5 : ((standingsMapF [teamA, teamB] cfgC1 [mF1, mF2, mF3]).map
      (fun s => (s.id, s.oversFaced))) = [("A", 1), ("B", 0)] := by decide
  have h6 : ((standingsMapF [teamA, teamB] cfgC1 [mF2, mF3, mF1]).map
      (fun s => (s.id, s.oversFaced))) =
      [("A", 9007199254740991 / 9007199254740992), ("B", 0)] := by decide
  refine ⟨by decide, by decide, by decide, by decide, h5, h6, ?_⟩
  intro heq
  rw [heq] at h5
  have hbad : ([("A", (1 : ℚ)), ("B", 0)] : List (String × ℚ)) =
      [("A", 9007199254740991 / 9007199254740992), ("B", 0)] := h5.symm.trans h6
  exact absurd hbad (by decide)

/-- C4 (amended): permuting the match list leaves the standings identical
under exact rational arithmetic (the idealization in which the fold is
commutative and associative), and even under the program's binary64
arithmetic it leaves every integer-valued standings component — matches
played, won, lost, points, runs scored and conceded, wickets taken —
identical; the binary64 overs accumulations, and the rates and ranking
derived from them, are order-independent only up to rounding. -/
theorem c4_amended_order_independence (teams : List Team) (cfg : TournamentConfig)
    {ms1 ms2 : List Match} (h : ms1.Perm ms2) :
    standingsMap teams cfg ms1 = standingsMap teams cfg ms2 ∧
    standings teams cfg ms1 = standings teams cfg ms2 ∧
    (standingsMapF teams cfg ms1).map core = (standingsMapF teams cfg ms2).map core := by
  have hm : standingsMap teams cfg ms1 = standingsMap teams cfg ms2 := by
    unfold standingsMap
    rw [foldl_applyMatch_perm (pointsConfig cfg) cfg (maxOvers cfg) (h.filter _)]
  refine ⟨hm, by unfold standings; rw [hm], ?_⟩
  rw [core_standingsMapF, core_standingsMapF]
  exact foldl_coreApply_perm (pointsConfig cfg) (h.filter _) _

/-- C4 amended witness: on the counterexample's permuted lists the exact
model agrees on everything and the binary64 model still agrees on every
integer-valued component. -/
theorem c4_amended_witness :
    standingsMap [teamA, teamB] cfgC1 [mF1, mF2, mF3] =
      standingsMap [teamA, teamB] cfgC1 [mF2, mF3, mF1] ∧
    standings [teamA, teamB] cfgC1 [mF1, mF2, mF3] =
      standings [teamA, teamB] cfgC1 [mF2, mF3, mF1] ∧
    (standingsMapF [teamA, teamB] cfgC1 [mF1, mF2, mF3]).map core =
      (standingsMapF [teamA, teamB] cfgC1 [mF2, mF3, mF1]).map core :=
  c4_amended_order_independence [teamA, teamB] cfgC1 (by decide)

/-- C5: a side recorded with 10 wickets lost is credited an overs volume
equal to the full match overs limit, whatever its recorded overs-whole and
balls values, in the traditional regime and in the ball-count regime alike
(there the limit is 100 and the credited volume is the literal 100). -/
theorem c5_all_out_full_limit (cfg : TournamentConfig) (m : Match) :
    (m.t1Wickets = some 10 → t1VolFaced cfg (maxOvers cfg) m = maxOvers cfg) ∧
    (m.t2Wickets = some 10 → t2VolFaced cfg (maxOvers cfg) m = maxOvers cfg) := by
  constructor <;> intro h <;> by_cases hh : isHundred cfg <;>
    simp [t1VolFaced, t2VolFaced, maxOvers, h, hh]

/-- C5 witness: the all-out side of the C1 match is credited the 20-over
limit, and an all-out side in the 100-ball regime is credited 100. -/
theorem c5_witness :
    t2VolFaced cfgC1 (maxOvers cfgC1) matchC1 = maxOvers cfgC1 ∧
    t2VolFaced cfgHundred (maxOvers cfgHundred) matchHundred = maxOvers cfgHundred ∧
    maxOvers cfgC1 = 20 ∧ maxOvers cfgHundred = 100 :=
  ⟨(c5_all_out_full_limit cfgC1 matchC1).2 (by decide),
   (c5_all_out_full_limit cfgHundred matchHundred).2 (by decide),
   by decide, by decide⟩

/-- C6: in the ball-count regime a side with fewer than 10 wickets lost is
credited its raw overs-whole field as volume, with no division by 6, and
the points configuration is forced to win 4, draw 2, loss 0 whatever values
were configured. -/
theorem c6_ball_count_regime (cfg : TournamentConfig) (m : Match) (w : Int)
    (hreg : isHundred cfg = true) :
    pointsConfig cfg = { win := 4, draw := 2, loss := 0 } ∧
    (m.t1Wickets = some w → w < 10 →
      t1VolFaced cfg (maxOvers cfg) m = (optD m.t1OversWhole : ℚ)) ∧
    (m.t2Wickets = some w → w < 10 →
      t2VolFaced cfg (maxOvers cfg) m = (optD m.t2OversWhole : ℚ)) := by
  refine ⟨by simp [pointsConfig, hreg], ?_, ?_⟩ <;> intro hw hlt <;>
    simp [t1VolFaced, t2VolFaced, hreg, hw, show w ≠ 10 by omega]

/-- C6 witness: overs-whole 85 with 3 wickets in the 100-ball regime gives
volume 85, and the configured 7/5/3 points are overridden by 4/2/0. -/
theorem c6_witness :
    pointsConfig cfgHundred = { win := 4, draw := 2, loss := 0 } ∧
    t1VolFaced cfgHundred (maxOvers cfgHundred) matchHundred = 85 ∧
    cfgHundred.pointsForWin = 7 := by
  have h := c6_ball_count_regime cfgHundred matchHundred 3 (by decide)
  have h2 := h.2.1 (by decide) (by decide)
  have h3 : optD matchHundred.t1OversWhole = (85 : Int) := by decide
  rw [h3] at h2
  refine ⟨h.1, by rw [h2]; norm_num, rfl⟩


/-! ### Claim C7: the ranker -/

/-- The spec's three-level descending comparator with early exit, as a
proposition: points first, then net run rate, then scoring rate. -/
def specLe (a b : Standing) : Prop :=
  b.actualPoints < a.actualPoints ∨
    (a.actualPoints = b.actualPoints ∧
      (b.nrr < a.nrr ∨ (a.nrr = b.nrr ∧ b.scoringRate ≤ a.scoringRate)))

/-- The code's comparator decides exactly the spec's comparator chain. -/
theorem standingsLe_iff (a b : Standing) : standingsLe a b = true ↔ specLe a b := by
  unfold standingsLe specLe
  split_ifs with h1 h2
  · simp [h1]
  · push_neg at h1
    simp [h1, h2]
  · push_neg at h1 h2
    simp [h1, h2]

theorem standingsLe_trans (a b c : Standing) (hab : standingsLe a b = true)
    (hbc : standingsLe b c = true) : standingsLe a c = true := by
  rw [standingsLe_iff] at hab hbc ⊢
  unfold specLe at hab hbc ⊢
  rcases hab with h | ⟨h, hab⟩
  · rcases hbc with h2 | ⟨h2, _⟩
    · exact Or.inl (h2.trans h)
    · exact Or.inl (h2 ▸ h)
  · rcases hbc with h2 | ⟨h2, hbc⟩
    · exact Or.inl (h ▸ h2)
    · refine Or.inr ⟨h.trans h2, ?_⟩
      rcases hab with hn | ⟨hn, hs⟩
      · rcases hbc with hn2 | ⟨hn2, _⟩
        · exact Or.inl (hn2.trans hn)
        · exact Or.inl (hn2 ▸ hn)
      · rcases hbc with hn2 | ⟨hn2, hs2⟩
        · exact Or.inl (hn ▸ hn2)
        · exact Or.inr ⟨hn.trans hn2, hs2.trans hs⟩

theorem standingsLe_total (a b : Standing) :
    (standingsLe a b || standingsLe b a) = true := by
  rw [Bool.or_eq_true, standingsLe_iff, standingsLe_iff]
  unfold specLe
  rcases lt_trichotomy a.actualPoints b.actualPoints with h | h | h
  · exact Or.inr (Or.inl h)
  · rcases lt_trichotomy a.nrr b.nrr with h2 | h2 | h2
    · exact Or.inr (Or.inr ⟨h.symm, Or.inl h2⟩)
    · rcases le_total a.scoringRate b.scoringRate with h3 | h3
      · exact Or.inr (Or.inr ⟨h.symm, Or.inr ⟨h2.symm, h3⟩⟩)
      · exact Or.inl (Or.inr ⟨h, Or.inr ⟨h2, h3⟩⟩)
    · exact Or.inl (Or.inr ⟨h, Or.inl h2⟩)
  · exact Or.inl (Or.inl h)

/-- C7: the ranked standings are a permutation of the accumulator values,
sorted descending by the three-level comparator (points, then net run
rate, then scoring rate, early exit on the first non-equal level), and
entries equal on all three levels keep their relative accumulator order
(team-list insertion order) — the sort is stable. -/
theorem c7_ranker_contract (teams : List Team) (cfg : TournamentConfig)
    (ms : List Match) :
    (standings teams cfg ms).Perm (standingsMap teams cfg ms) ∧
    (standings teams cfg ms).Pairwise specLe ∧
    (∀ a b : Standing, [a, b].Sublist (standingsMap teams cfg ms) →
      a.actualPoints = b.actualPoints → a.nrr = b.nrr →
      a.scoringRate = b.scoringRate →
      [a, b].Sublist (standings teams cfg ms)) := by
  unfold standings
  refine ⟨List.mergeSort_perm _ _, ?_, ?_⟩
  · have h := List.sorted_mergeSort standingsLe_trans standingsLe_total
      (standingsMap teams cfg ms)
    exact h.imp (fun hab => (standingsLe_iff _ _).1 hab)
  · intro a b hsub h1 h2 h3
    apply List.sublist_mergeSort standingsLe_trans standingsLe_total ?_ hsub
    refine List.pairwise_cons.2 ⟨?_, List.pairwise_singleton _ _⟩
    intro y hy
    rw [List.mem_singleton] at hy
    subst hy
    rw [standingsLe_iff]
    exact Or.inr ⟨h1, Or.inr ⟨h2, le_of_eq h3.symm⟩⟩

/-- C7 witness: with no completed match all three teams tie on every
level, and the two equal entries B, C keep their team-list order in the
sorted standings. -/
theorem c7_witness :
    [computeRates (initStanding teamB), computeRates (initStanding teamC)].Sublist
      (standings [teamA, teamB, teamC] cfgC1 []) :=
  (c7_ranker_contract [teamA, teamB, teamC] cfgC1 []).2.2
    (computeRates (initStanding teamB)) (computeRates (initStanding teamC))
    (by decide) (by decide) (by decide) (by decide)


/-! ### Claims C8 and C9 -/

/-- C8: the TIE badge is shown for the entry at index `i` exactly when
some other index holds an entry with the same total points — equality of
points alone, independent of whether net run rate or scoring rate
separates the entries in rank order. -/
theorem c8_tie_flag_iff (l : List Standing) (i : Nat) (s : Standing)
    (hs : l[i]? = some s) :
    (tieFlag l i = true ↔
      ∃ j : Nat, ∃ o : Standing, l[j]? = some o ∧ j ≠ i ∧
        o.actualPoints = s.actualPoints) := by
  unfold tieFlag
  rw [hs]
  show (l.enum.any (fun p => p.1 != i && p.2.actualPoints == s.actualPoints)) = true ↔ _
  rw [List.any_eq_true]
  constructor
  · rintro ⟨⟨j, o⟩, hmem, hp⟩
    rw [List.mem_enum_iff_getElem?] at hmem
    simp only [Bool.and_eq_true, bne_iff_ne, beq_iff_eq] at hp
    exact ⟨j, o, hmem, hp.1, hp.2⟩
  · rintro ⟨j, o, hj, hne, hpts⟩
    refine ⟨(j, o), ?_, ?_⟩
    · rw [List.mem_enum_iff_getElem?]
      exact hj
    · simp [hne, hpts]

/-- C8 witness: two zero-match entries with equal points but different
net run rates are both covered; the first is flagged tied by the second. -/
theorem c8_witness :
    tieFlag [computeRates (initStanding teamB),
      { computeRates (initStanding teamC) with nrr := 1 }] 0 = true :=
  (c8_tie_flag_iff
      [computeRates (initStanding teamB),
        { computeRates (initStanding teamC) with nrr := 1 }] 0
      (computeRates (initStanding teamB)) (by decide)).2
    ⟨1, { computeRates (initStanding teamC) with nrr := 1 }, by decide, by decide, by decide⟩

/-- C9: for every pair of committed totals the classifier inside
`handleSaveResult` returns `T1_WIN` with winner team1 when team1's total
is higher, `T2_WIN` with winner team2 when team2's is higher, and `TIE`
with no winner on equal totals; no other result type is produced, and the
saved match stores exactly the classified result and winner. -/
theorem c9_classifier (t1Id t2Id : String) (r1 r2 : Int) (m : Match)
    (w1 o1 b1 w2 o2 b2 : Int) :
    (r1 > r2 → classifyResult t1Id t2Id r1 r2 = (MatchResultType.T1_WIN, some t1Id)) ∧
    (r2 > r1 → classifyResult t1Id t2Id r1 r2 = (MatchResultType.T2_WIN, some t2Id)) ∧
    (r1 = r2 → classifyResult t1Id t2Id r1 r2 = (MatchResultType.TIE, none)) ∧
    ((classifyResult t1Id t2Id r1 r2).1 = MatchResultType.T1_WIN ∨
      (classifyResult t1Id t2Id r1 r2).1 = MatchResultType.T2_WIN ∨
      (classifyResult t1Id t2Id r1 r2).1 = MatchResultType.TIE) ∧
    (handleSaveResult m r1 w1 o1 b1 r2 w2 o2 b2).status = MatchStatus.COMPLETED ∧
    (handleSaveResult m r1 w1 o1 b1 r2 w2 o2 b2).resultType =
      some (classifyResult m.team1Id m.team2Id r1 r2).1 ∧
    (handleSaveResult m r1 w1 o1 b1 r2 w2 o2 b2).winnerId =
      (classifyResult m.team1Id m.team2Id r1 r2).2 := by
  refine ⟨fun h => ?_, fun h => ?_, fun h => ?_, ?_, rfl, rfl, rfl⟩
  · unfold classifyResult
    rw [if_pos h]
  · unfold classifyResult
    rw [if_neg (by omega), if_pos h]
  · unfold classifyResult
    rw [if_neg (by omega), if_neg (by omega)]
  · unfold classifyResult
    split_ifs <;> simp

/-- C9 witness at concrete totals 3-1, 1-3 and 2-2. -/
theorem c9_witness :
    classifyResult "A" "B" 3 1 = (MatchResultType.T1_WIN, some "A") ∧
    classifyResult "A" "B" 1 3 = (MatchResultType.T2_WIN, some "B") ∧
    classifyResult "A" "B" 2 2 = (MatchResultType.TIE, none) :=
  ⟨(c9_classifier "A" "B" 3 1 blankMatch 0 0 0 0 0 0).1 (by decide),
   (c9_classifier "A" "B" 1 3 blankMatch 0 0 0 0 0 0).2.1 (by decide),
   (c9_classifier "A" "B" 2 2 blankMatch 0 0 0 0 0 0).2.2.1 rfl⟩


/-! ### Claim C10: one entry per team, zero defaults -/

theorem computeRates_id (s : Standing) : (computeRates s).id = s.id := rfl

theorem applyMatch_ids (pc : PointsConfig) (cfg : TournamentConfig) (mo : ℚ)
    (stats : List Standing) (m : Match) :
    (applyMatch pc cfg mo stats m).map Standing.id = stats.map Standing.id := by
  unfold applyMatch
  split
  · rw [List.map_map]
    congr 1
    funext s
    simp [Function.comp, updEntry_id]
  · rfl

theorem foldl_applyMatch_ids (pc : PointsConfig) (cfg : TournamentConfig) (mo : ℚ)
    (l : List Match) (init : List Standing) :
    (l.foldl (applyMatch pc cfg mo) init).map Standing.id = init.map Standing.id := by
  induction l generalizing init with
  | nil => rfl
  | cons m l ih => rw [List.foldl_cons, ih, applyMatch_ids]

/-- Building the initial accumulator over distinct team ids just appends a
fresh zeroed entry per team. -/
theorem foldl_insertStat (teams : List Team) (acc : List Standing)
    (h : (acc.map Standing.id ++ teams.map Team.id).Nodup) :
    teams.foldl insertStat acc = acc ++ teams.map initStanding := by
  induction teams generalizing acc with
  | nil => simp
  | cons t ts ih =>
    have hnotin : (acc.any (fun s => s.id == t.id)) ≠ true := by
      simp only [ne_eq, List.any_eq_true, beq_iff_eq]
      rintro ⟨s0, hs0, hse⟩
      have hmem : t.id ∈ acc.map Standing.id := List.mem_map.2 ⟨s0, hs0, hse⟩
      have hd := (List.nodup_append.1 h).2.2
      exact hd hmem (by simp)
    have hins : insertStat acc t = acc ++ [initStanding t] := by
      unfold insertStat
      rw [if_neg hnotin]
    have hnodup2 : ((acc ++ [initStanding t]).map Standing.id ++ ts.map Team.id).Nodup := by
      simpa [List.append_assoc, initStanding] using h
    rw [List.foldl_cons, hins, ih _ hnodup2]
    simp

/-- Entries whose id is referenced by no folded match keep any property
they had in the initial accumulator. -/
theorem foldl_applyMatch_invariant (pc : PointsConfig) (cfg : TournamentConfig)
    (mo : ℚ) (tid : String) (Q : Standing → Prop) (l : List Match)
    (hl : ∀ m ∈ l, m.team1Id ≠ tid ∧ m.team2Id ≠ tid) (init : List Standing)
    (hinit : ∀ s ∈ init, s.id = tid → Q s) :
    ∀ s ∈ l.foldl (applyMatch pc cfg mo) init, s.id = tid → Q s := by
  induction l generalizing init with
  | nil => simpa using hinit
  | cons m l ih =>
    rw [List.foldl_cons]
    apply ih (fun m2 hm2 => hl m2 (List.mem_cons_of_mem _ hm2))
    intro s hs hsid
    unfold applyMatch at hs
    split at hs
    · rcases List.mem_map.1 hs with ⟨s0, hs0, rfl⟩
      have hid : s0.id = tid := by
        rw [← updEntry_id pc cfg mo m s0]
        exact hsid
      have hm := hl m (List.mem_cons_self _ _)
      have hfix : updEntry pc cfg mo m s0 = s0 := by
        unfold updEntry
        rw [if_neg (fun hcon => hm.2 (hcon.symm.trans hid)),
          if_neg (fun hcon => hm.1 (hcon.symm.trans hid))]
      rw [hfix]
      exact hinit s0 hs0 hid
    · exact hinit s hs hsid

/-- C10: under distinct team ids, every team of the input list appears
exactly once in the ranked standings, and a team referenced by no
completed match keeps points 0, net run rate 0, scoring rate 0 and
economy rate 0 (zero-denominator rates are defined as 0). -/
theorem c10_every_team_once_and_zero_defaults (teams : List Team)
    (cfg : TournamentConfig) (ms : List Match)
    (h : (teams.map Team.id).Nodup) :
    ((standings teams cfg ms).map Standing.id).Perm (teams.map Team.id) ∧
    (∀ t ∈ teams, (standings teams cfg ms).countP (fun s => s.id == t.id) = 1) ∧
    (∀ t ∈ teams,
      (∀ m ∈ ms, m.status = MatchStatus.COMPLETED →
        m.team1Id ≠ t.id ∧ m.team2Id ≠ t.id) →
      ∀ s ∈ standings teams cfg ms, s.id = t.id →
        s.actualPoints = 0 ∧ s.nrr = 0 ∧ s.scoringRate = 0 ∧ s.economyRate = 0) := by
  have hinit : initStats teams = teams.map initStanding := by
    have h0 := foldl_insertStat teams [] (by simpa using h)
    simpa [initStats] using h0
  have hids : (standingsMap teams cfg ms).map Standing.id = teams.map Team.id := by
    unfold standingsMap
    rw [List.map_map]
    have hcomp : Standing.id ∘ computeRates = Standing.id := funext fun s => rfl
    rw [hcomp, foldl_applyMatch_ids, hinit, List.map_map]
    congr 1
  have hperm : (standings teams cfg ms).Perm (standingsMap teams cfg ms) :=
    List.mergeSort_perm _ _
  have hidperm : ((standings teams cfg ms).map Standing.id).Perm (teams.map Team.id) := by
    have hp := hperm.map Standing.id
    rwa [hids] at hp
  refine ⟨hidperm, ?_, ?_⟩
  · intro t ht
    rw [hperm.countP_eq]
    have hc2 : (standingsMap teams cfg ms).countP (fun s => s.id == t.id) =
        (teams.map Team.id).countP (fun x => x == t.id) := by
      rw [← hids, List.countP_map]
      rfl
    rw [hc2]
    exact List.count_eq_one_of_mem h (List.mem_map.2 ⟨t, ht, rfl⟩)
  · intro t ht hms s hsmem hsid
    have hsmem2 : s ∈ standingsMap teams cfg ms := (hperm.mem_iff).1 hsmem
    unfold standingsMap at hsmem2
    rcases List.mem_map.1 hsmem2 with ⟨u, hu, rfl⟩
    have huid : u.id = t.id := hsid
    have hQ : ∀ v ∈ (ms.filter (fun m => m.status == MatchStatus.COMPLETED)).foldl
        (applyMatch (pointsConfig cfg) cfg (maxOvers cfg)) (initStats teams),
        v.id = t.id → v = initStanding t := by
      apply foldl_applyMatch_invariant
      · intro m hm
        rw [List.mem_filter] at hm
        exact hms m hm.1 (by simpa using hm.2)
      · intro v hv hvid
        rw [hinit] at hv
        rcases List.mem_map.1 hv with ⟨t2, ht2, rfl⟩
        have ht2t : t2 = t := List.inj_on_of_nodup_map h ht2 ht hvid
        rw [ht2t]
    have hu2 : u = initStanding t := hQ u hu huid
    rw [hu2]
    refine ⟨rfl, ?_, ?_, ?_⟩ <;> simp [computeRates, initStanding]

/-- C10 witness: a three-team league with one completed match between A
and B still lists team C exactly once. -/
theorem c10_witness :
    (standings [teamA, teamB, teamC] cfgC1 [matchC1]).countP
      (fun s => s.id == teamC.id) = 1 :=
  (c10_every_team_once_and_zero_defaults [teamA, teamB, teamC] cfgC1 [matchC1]
    (by decide)).2.1 teamC (by decide)

end BestLim
